import Mathlib

/-!
Verification of the Midaxas Finance tracker core logic (Tracker.py):
the aggregation engine (totals, totals_by_category, filter_month,
rating_from_net, the budget-warning derivation of refresh_dashboard)
and the ledger store (load_json, save_json_atomic, load_transactions,
load_settings), shallowly embedded in Lean.

Python floats are modelled as rationals, record dicts as structures of
optional fields, and the filesystem as a map from path to content.
-/

/-- JSON-like Python values, as held in record fields and settings:
None, bool, number, string, list, dict. -/
inductive PyJson where
  | null
  | bool (b : Bool)
  | num (q : Rat)
  | str (s : String)
  | arr (elems : List PyJson)
  | obj (fields : List (String × PyJson))

/-- Whitespace accepted around a Python/JSON numeral. -/
def isWs (c : Char) : Bool :=
  c = ' ' || c = '\t' || c = '\n' || c = '\r'

/-- Value of a list of decimal digit characters. -/
def digitsToNat (ds : List Char) : Nat :=
  ds.foldl (fun acc c => acc * 10 + (c.toNat - 48)) 0

/-- Unsigned decimal numeral: digits with an optional fractional part,
at least one digit on one side of the optional point. -/
def parseDecimalCore (cs : List Char) : Option Rat :=
  let intD := cs.takeWhile Char.isDigit
  match cs.drop intD.length with
  | [] => if intD.isEmpty then none else some (digitsToNat intD)
  | '.' :: frac =>
    let fracD := frac.takeWhile Char.isDigit
    if (frac.drop fracD.length).isEmpty && !(intD.isEmpty && fracD.isEmpty) then
      some ((digitsToNat intD : Rat) + (digitsToNat fracD : Rat) / (10 : Rat) ^ fracD.length)
    else none
  | _ => none

/-- Model of how the Python float() builtin reads a string: optional
surrounding whitespace, an optional sign, then a plain decimal numeral.
(Exponents and the inf/nan spellings are not modelled; no claim depends
on them.) Returns none where Python raises ValueError. -/
def parseDecimal (s : String) : Option Rat :=
  let cs := ((s.data.dropWhile isWs).reverse.dropWhile isWs).reverse
  match cs with
  | '-' :: rest => (parseDecimalCore rest).map (fun q => -q)
  | '+' :: rest => parseDecimalCore rest
  | _ => parseDecimalCore cs

/-- Model of the Python float() builtin on JSON-like values: numbers and
booleans convert, numeric strings parse, everything else raises
(TypeError for None/list/dict, ValueError for a non-numeric string). -/
def pyFloat : PyJson → Except String Rat
  | .num q => .ok q
  | .bool b => .ok (if b then 1 else 0)
  | .str s =>
    match parseDecimal s with
    | some q => .ok q
    | none => .error "ValueError"
  | .null => .error "TypeError"
  | .arr _ => .error "TypeError"
  | .obj _ => .error "TypeError"

/-- A transaction record: a Python dict whose keys may be absent.
Only the fields the core functions read are modelled; dict get with a
default is Option.getD. -/
structure Transaction where
  date : Option String
  type : Option String
  amount : Option PyJson
  category : Option String

/-- Convenience constructor for records in the order type, amount,
category, date. -/
def mkTx (ty : Option String) (amt : Option PyJson) (cat : Option String)
    (dt : Option String) : Transaction :=
  ⟨dt, ty, amt, cat⟩

/-- Result shape of totals: the three-key dict income/expenses/net. -/
structure Totals where
  income : Rat
  expenses : Rat
  net : Rat
deriving DecidableEq, Repr

/-- Left-to-right sum of float(t.get("amount", 0.0)) over a record list,
stopping at the first conversion error, as the sum over the Python
generator does. -/
def sum_amounts : List Transaction → Except String Rat
  | [] => .ok 0
  | t :: ts =>
    match pyFloat (t.amount.getD (.num 0)) with
    | .error e => .error e
    | .ok a =>
      match sum_amounts ts with
      | .error e => .error e
      | .ok s => .ok (a + s)

/-- totals: income is the sum of amounts of records whose type is
"income", expenses over "expense", net their difference. The income sum
is evaluated first, so its error wins; no exception handling exists
here, a bad amount propagates. -/
def totals (txs : List Transaction) : Except String Totals :=
  match sum_amounts (txs.filter (fun t => t.type == some "income")) with
  | .error e => .error e
  | .ok income =>
    match sum_amounts (txs.filter (fun t => t.type == some "expense")) with
    | .error e => .error e
    | .ok expenses => .ok ⟨income, expenses, income - expenses⟩

/-- Result shape of rating_from_net: points, label, message. -/
structure Rating where
  points : Nat
  label : String
  message : String
deriving DecidableEq, Repr

/-- rating_from_net: the five cumulative threshold bonuses on net
savings, then the label from the final point count. -/
def rating_from_net (net_savings : Rat) : Rating :=
  let points : Nat := 0
  let points := if net_savings > 0 then points + 1 else points
  let points := if net_savings > 100 then points + 1 else points
  let points := if net_savings > 500 then points + 1 else points
  let points := if net_savings > 1000 then points + 1 else points
  let points := if net_savings > 10000 then points + 6 else points
  if points = 10 then
    ⟨points, "Perfect", "This means your savings are perfect."⟩
  else if points ≥ 5 then
    ⟨points, "Average", "This means your savings are average."⟩
  else
    ⟨points, "Poor", "Your savings are in poor condition."⟩

/-- Python dict update out[cat] = out.get(cat, 0.0) + amt preserving
insertion order: an existing key keeps its position, a new key is
appended at the end. -/
def upsert (out : List (String × Rat)) (cat : String) (amt : Rat) :
    List (String × Rat) :=
  match out with
  | [] => [(cat, amt)]
  | (k, v) :: rest =>
    if k = cat then (k, v + amt) :: rest else (k, v) :: upsert rest cat amt

/-- The guard `if ttype and t.get("type") != ttype: continue`: skip a
record only when ttype is a truthy (nonempty) string and the record type
differs from it. -/
def skipForType (ttype : Option String) (t : Transaction) : Bool :=
  match ttype with
  | none => false
  | some s => s != "" && t.type != some s

/-- The sorted key from the source, `(-kv[1], kv[0].lower())`, read as a
total preorder: earlier means larger sum, ties by lowercased name
ascending. -/
def catLE (a b : String × Rat) : Prop :=
  b.2 < a.2 ∨ (a.2 = b.2 ∧ a.1.toLower ≤ b.1.toLower)

instance : DecidableRel catLE := fun a b => by
  unfold catLE
  infer_instance

/-- Body of the grouping loop of totals_by_category: skip or accumulate
one record into the running dict. The category key is
t.get("category", "Uncategorized"); the amount is float() of
t.get("amount", 0.0) with a conversion failure giving 0.0. -/
def catStep (ttype : Option String) (out : List (String × Rat)) (t : Transaction) :
    List (String × Rat) :=
  if skipForType ttype t then out
  else
    upsert out (t.category.getD "Uncategorized")
      (match pyFloat (t.amount.getD (.num 0)) with
       | .ok a => a
       | .error _ => 0)

/-- totals_by_category: optionally restrict by transaction type, group
amounts by category, then sort by the key (-sum, lowercased name);
Python sorted is stable, as is the stable sort used here. -/
def totals_by_category (txs : List Transaction) (ttype : Option String) :
    List (String × Rat) :=
  List.insertionSort catLE (txs.foldl (catStep ttype) [])

/-- Decimal digit character for d < 10. -/
def digitChar (d : Nat) : Char := Char.ofNat (48 + d)

/-- Fuel-driven digit accumulator for natToString. -/
def natDigitsAux : Nat → Nat → List Char → List Char
  | 0, _, acc => acc
  | fuel + 1, n, acc =>
    if n = 0 then acc else natDigitsAux fuel (n / 10) (digitChar (n % 10) :: acc)

/-- Decimal rendering of a natural number. -/
def natToString (n : Nat) : String :=
  if n = 0 then "0" else String.mk (natDigitsAux (n + 1) n [])

/-- Left pad with zeros to the given width. -/
def zfill (w : Nat) (s : String) : String :=
  String.mk (List.replicate (w - s.length) '0') ++ s

/-- Python f-string 0-padded integer formatting such as f"04d": the sign
counts toward the width. -/
def intPad (w : Nat) (n : Int) : String :=
  if n < 0 then "-" ++ zfill (w - 1) (natToString n.natAbs)
  else zfill w (natToString n.natAbs)

/-- The month key built in filter_month: f-string 04d year, dash,
02d month, dash. -/
def month_pfx (year month : Int) : String :=
  intPad 4 year ++ "-" ++ intPad 2 month ++ "-"

/-- Python str.startswith as a character-list test. -/
def strStartsWith (s p : String) : Bool :=
  p.data.isPrefixOf s.data

/-- filter_month: keep the records whose date string starts with the
zero-padded "YYYY-MM-" key; a missing date reads as "". -/
def filter_month (txs : List Transaction) (year month : Int) : List Transaction :=
  txs.filter (fun t => strStartsWith (t.date.getD "") (month_pfx year month))

/-- The filesystem, as a map from path to whole-file content. -/
structure FS where
  files : String → Option String

/-- Create or overwrite a file. -/
def FS.writeFile (fs : FS) (p c : String) : FS :=
  ⟨fun q => if q = p then some c else fs.files q⟩

/-- Remove a file; removing an absent file is a no-op here, matching the
swallowed os.remove failure in the cleanup handler. -/
def FS.removeFile (fs : FS) (p : String) : FS :=
  ⟨fun q => if q = p then none else fs.files q⟩

/-- The steps of save_json_atomic that can raise: tempfile.mkstemp, the
json.dump write, f.flush, os.fsync, and the final os.replace. -/
inductive SaveStep where
  | create
  | write
  | flush
  | fsync
  | rename
deriving DecidableEq

/-- Outcome of a save: the resulting filesystem and whether the
exception propagated to the caller. -/
structure SaveResult where
  fs : FS
  raised : Bool

/-- save_json_atomic over the abstract filesystem, with failAt injecting
an exception at the given step. mkstemp creates a fresh empty temp file
before the try block, so a creation failure propagates with nothing to
clean up; an exception inside the try removes the temp file (that
removal failure being swallowed) and re-raises; os.replace atomically
moves the temp file over the target, the only step that touches the
target path. The content argument stands for the serialized JSON. -/
def save_json_atomic (fs : FS) (path tmp content : String)
    (failAt : Option SaveStep) : SaveResult :=
  if failAt = some .create then ⟨fs, true⟩
  else
    let fs1 := fs.writeFile tmp ""
    if failAt = some .write then ⟨fs1.removeFile tmp, true⟩
    else
      let fs2 := fs1.writeFile tmp content
      if failAt = some .flush ∨ failAt = some .fsync then ⟨fs2.removeFile tmp, true⟩
      else if failAt = some .rename then ⟨fs2.removeFile tmp, true⟩
      else ⟨(fs2.removeFile tmp).writeFile path content, false⟩

/-- Whitespace between JSON tokens. -/
def jsonWs (c : Char) : Bool :=
  c = ' ' || c = '\t' || c = '\n' || c = '\r'

/-- JSON string body after the opening quote; escape sequences are not
modelled (a backslash fails the parse), which no claim depends on. -/
def parseJsonStr (cs : List Char) : Option (String × List Char) :=
  let body := cs.takeWhile (fun c => !(c = '"' || c = '\\'))
  match cs.drop body.length with
  | '"' :: rest => some (String.mk body, rest)
  | _ => none

/-- JSON number: optional minus, digits, optional nonempty fraction;
exponents are not modelled, which no claim depends on. -/
def parseJsonNum (cs : List Char) : Option (PyJson × List Char) :=
  let (sign, cs1) : Rat × List Char :=
    match cs with
    | '-' :: r => (-1, r)
    | _ => (1, cs)
  let intD := cs1.takeWhile Char.isDigit
  if intD.isEmpty then none
  else
    match cs1.drop intD.length with
    | '.' :: r =>
      let fracD := r.takeWhile Char.isDigit
      if fracD.isEmpty then none
      else
        some (.num (sign * ((digitsToNat intD : Rat) +
          (digitsToNat fracD : Rat) / (10 : Rat) ^ fracD.length)), r.drop fracD.length)
    | rest => some (.num (sign * (digitsToNat intD : Rat)), rest)

mutual

/-- Fuel-driven JSON value parser, a model of json.load. -/
def parseJsonVal : Nat → List Char → Option (PyJson × List Char)
  | 0, _ => none
  | fuel + 1, cs =>
    match cs.dropWhile jsonWs with
    | 'n' :: 'u' :: 'l' :: 'l' :: rest => some (.null, rest)
    | 't' :: 'r' :: 'u' :: 'e' :: rest => some (.bool true, rest)
    | 'f' :: 'a' :: 'l' :: 's' :: 'e' :: rest => some (.bool false, rest)
    | '"' :: rest => (parseJsonStr rest).map (fun p => (.str p.1, p.2))
    | '[' :: rest =>
      (match rest.dropWhile jsonWs with
       | ']' :: r2 => some (.arr [], r2)
       | r2 => parseJsonElems fuel r2 [])
    | c :: rest =>
      if c = Char.ofNat 123 then
        match rest.dropWhile jsonWs with
        | r2 =>
          if r2.head? = some (Char.ofNat 125) then some (.obj [], r2.tail)
          else parseJsonMembers fuel r2 []
      else parseJsonNum (c :: rest)
    | [] => none

/-- Comma-separated JSON array elements up to the closing bracket. -/
def parseJsonElems : Nat → List Char → List PyJson → Option (PyJson × List Char)
  | 0, _, _ => none
  | fuel + 1, cs, acc =>
    match parseJsonVal fuel cs with
    | none => none
    | some (v, rest) =>
      match rest.dropWhile jsonWs with
      | ',' :: r2 => parseJsonElems fuel r2 (acc ++ [v])
      | ']' :: r2 => some (.arr (acc ++ [v]), r2)
      | _ => none

/-- Comma-separated JSON object members up to the closing brace. -/
def parseJsonMembers : Nat → List Char → List (String × PyJson) →
    Option (PyJson × List Char)
  | 0, _, _ => none
  | fuel + 1, cs, acc =>
    match cs.dropWhile jsonWs with
    | '"' :: r1 =>
      match parseJsonStr r1 with
      | none => none
      | some (k, r2) =>
        match r2.dropWhile jsonWs with
        | ':' :: r3 =>
          match parseJsonVal fuel r3 with
          | none => none
          | some (v, r4) =>
            match r4.dropWhile jsonWs with
            | ',' :: r5 => parseJsonMembers fuel r5 (acc ++ [(k, v)])
            | c :: r5 =>
              if c = Char.ofNat 125 then some (.obj (acc ++ [(k, v)]), r5)
              else none
            | [] => none
        | _ => none
    | _ => none

end

/-- json.load on a whole document: one value, then only trailing
whitespace; none where Python raises JSONDecodeError. -/
def json_load (s : String) : Option PyJson :=
  match parseJsonVal (4 * s.length + 8) s.data with
  | some (v, rest) => if (rest.dropWhile jsonWs).isEmpty then some v else none
  | none => none

/-- The transactions storage path. -/
def DATA_FILE : String := "transactions.json"

/-- The settings storage path. -/
def SETTINGS_FILE : String := "settings.json"

/-- load_json: a missing file (FileNotFoundError) and unparseable
content (JSONDecodeError) both return the supplied default. -/
def load_json (fs : FS) (path : String) (dflt : PyJson) : PyJson :=
  match fs.files path with
  | none => dflt
  | some content =>
    match json_load content with
    | none => dflt
    | some v => v

/-- load_transactions: load_json of the data file with default []. -/
def load_transactions (fs : FS) : PyJson :=
  load_json fs DATA_FILE (.arr [])

/-- load_settings: load_json of the settings file with the default
pin_hash None, budgets empty dict. -/
def load_settings (fs : FS) : PyJson :=
  load_json fs SETTINGS_FILE (.obj [("pin_hash", .null), ("budgets", .obj [])])

/-- Warning classification emitted by the dashboard budget loop. -/
inductive WarnKind where
  | over
  | near
deriving DecidableEq, Repr

/-- The budget-warning loop of refresh_dashboard, abstracting the
rendered line down to (category, used, limit, kind): each configured
(cat, limit) has its limit coerced by float() with failures giving 0.0,
non-positive limits are skipped, the amount spent is read from the
month expense totals (0.0 if absent), and percent spent classifies the
row as over (at least 100) or near (at least 80), else nothing. -/
def budget_warnings : List (String × PyJson) → List (String × Rat) →
    List (String × Rat × Rat × WarnKind)
  | [], _ => []
  | (cat, limit) :: rest, spent =>
    let limit_val :=
      match pyFloat limit with
      | .ok v => v
      | .error _ => 0
    if limit_val ≤ 0 then budget_warnings rest spent
    else
      let used := (spent.lookup cat).getD 0
      let pct := if limit_val ≠ 0 then used / limit_val * 100 else 0
      if pct ≥ 100 then (cat, used, limit_val, .over) :: budget_warnings rest spent
      else if pct ≥ 80 then (cat, used, limit_val, .near) :: budget_warnings rest spent
      else budget_warnings rest spent

/-- The dashboard composition: warnings for the given month come from
budget_warnings over the expense totals_by_category of that month's
records. -/
def dashboard_warnings (txs : List Transaction) (year month : Int)
    (budgets : List (String × PyJson)) : List (String × Rat × Rat × WarnKind) :=
  budget_warnings budgets (totals_by_category (filter_month txs year month) (some "expense"))

/-- Amount a record contributes when conversion cannot raise: the
numeric value, or 0 when the amount key is absent. -/
def amount_or_zero (t : Transaction) : Rat :=
  match t.amount with
  | some (.num q) => q
  | _ => 0

/-- Keys of the running category dict, in insertion order. -/
def keysOf (l : List (String × Rat)) : List String := l.map Prod.fst

/-- A concrete starting filesystem holding one already persisted
file. -/
def fsDemo : FS :=
  ⟨fun p => if p = "transactions.json" then some "old content" else none⟩

/-- A filesystem whose transactions file holds malformed JSON and whose
settings file is absent. -/
def fsBad : FS :=
  ⟨fun p => if p = "transactions.json" then some "not json" else none⟩

instance : IsTotal (String × Rat) catLE :=
  ⟨fun a b => by
    unfold catLE
    rcases lt_trichotomy a.2 b.2 with h | h | h
    · exact Or.inr (Or.inl h)
    · rcases le_total a.1.toLower b.1.toLower with hs | hs
      · exact Or.inl (Or.inr ⟨h, hs⟩)
      · exact Or.inr (Or.inr ⟨h.symm, hs⟩)
    · exact Or.inl (Or.inl h)⟩

instance : IsTrans (String × Rat) catLE :=
  ⟨fun a b c hab hbc => by
    unfold catLE at hab hbc ⊢
    rcases hab with h1 | ⟨h1e, h1s⟩
    · rcases hbc with h2 | ⟨h2e, h2s⟩
      · exact Or.inl (h2.trans h1)
      · exact Or.inl (h2e ▸ h1)
    · rcases hbc with h2 | ⟨h2e, h2s⟩
      · exact Or.inl (by rw [h1e]; exact h2)
      · exact Or.inr ⟨h1e.trans h2e, h1s.trans h2s⟩⟩

/-- sum_amounts succeeds with the pointwise sum when every amount is
absent or numeric. -/
theorem sum_amounts_ok (l : List Transaction)
    (h : ∀ t ∈ l, t.amount = none ∨ ∃ q, t.amount = some (.num q)) :
    sum_amounts l = .ok (l.map amount_or_zero).sum := by
  induction l with
  | nil => simp [sum_amounts]
  | cons t ts ih =>
    have ht := h t (List.mem_cons_self t ts)
    have hts := ih (fun x hx => h x (List.mem_cons_of_mem _ hx))
    rcases ht with h0 | ⟨q, hq⟩
    · simp [sum_amounts, h0, pyFloat, hts, amount_or_zero]
    · simp [sum_amounts, hq, pyFloat, hts, amount_or_zero]

/-- C1 counterexample: rating_from_net 20000 returns neither points 9
nor the label "Average". -/
theorem claim1_counterexample :
    (rating_from_net 20000).points ≠ 9 ∧ (rating_from_net 20000).label ≠ "Average" := by
  decide

/-- C1 amended: rating_from_net(20000) returns points 10 with label
"Perfect" (all five thresholds are exceeded). -/
theorem claim1_rating_20000 :
    rating_from_net 20000 = ⟨10, "Perfect", "This means your savings are perfect."⟩ := by
  decide

/-- C2 counterexample: totals raises on a record whose amount is the
non-numeric string "abc"; it is not treated as 0. -/
theorem claim2_counterexample :
    (totals [mkTx (some "income") (some (.str "abc")) none none]).isOk = false := by
  decide

/-- C2 amended: totals never raises when every record amount is either
absent or a number; an absent amount contributes 0 to the sums, and the
result is income, expenses, and their difference. (A non-numeric amount,
by contrast, propagates the conversion error.) -/
theorem claim2_totals_defensive (txs : List Transaction)
    (h : ∀ t ∈ txs, t.amount = none ∨ ∃ q, t.amount = some (.num q)) :
    totals txs = .ok
      ⟨((txs.filter (fun t => t.type == some "income")).map amount_or_zero).sum,
       ((txs.filter (fun t => t.type == some "expense")).map amount_or_zero).sum,
       ((txs.filter (fun t => t.type == some "income")).map amount_or_zero).sum -
         ((txs.filter (fun t => t.type == some "expense")).map amount_or_zero).sum⟩ := by
  have hi := sum_amounts_ok (txs.filter (fun t => t.type == some "income"))
    (fun t ht => h t (List.mem_of_mem_filter ht))
  have he := sum_amounts_ok (txs.filter (fun t => t.type == some "expense"))
    (fun t ht => h t (List.mem_of_mem_filter ht))
  simp [totals, hi, he]

/-- C2 witness: a one-record list with a missing amount sums to zero
without an error. -/
theorem claim2_witness :
    totals [mkTx (some "income") none none none] = .ok ⟨0, 0, 0⟩ := by
  have h := claim2_totals_defensive [mkTx (some "income") none none none]
    (by intro t ht; simp at ht; subst ht; left; rfl)
  rw [h]
  simp [mkTx, amount_or_zero]

/-- C4 counterexample: a record dated "2024-03" (missing the day) does
NOT match filter_month 2024 3, because the tested month key carries a
trailing dash. -/
theorem claim4_counterexample :
    filter_month [mkTx none none none (some "2024-03")] 2024 3 = [] := rfl

/-- C4 amended: filter_month 2024 3 keeps exactly the records whose date
starts with "2024-03-"; a record dated "2024-03" does not match, one
dated "2024-3-01" does not match, and one dated "2024-03-05" does. -/
theorem claim4_filter_month :
    (∀ txs : List Transaction, filter_month txs 2024 3 =
      txs.filter (fun t => strStartsWith (t.date.getD "") "2024-03-")) ∧
    filter_month [mkTx none none none (some "2024-03")] 2024 3 = [] ∧
    filter_month [mkTx none none none (some "2024-3-01")] 2024 3 = [] ∧
    filter_month [mkTx none none none (some "2024-03-05")] 2024 3 =
      [mkTx none none none (some "2024-03-05")] := by
  have hp : month_pfx 2024 3 = "2024-03-" := rfl
  refine ⟨fun txs => ?_, rfl, rfl, rfl⟩
  simp only [filter_month, hp]

/-- The point count of rating_from_net is the sum of the five
independent threshold indicators. -/
theorem rating_points_eq (net : Rat) :
    (rating_from_net net).points =
      (if 0 < net then 1 else 0) + (if 100 < net then 1 else 0) +
      (if 500 < net then 1 else 0) + (if 1000 < net then 1 else 0) +
      (if 10000 < net then 6 else 0) := by
  unfold rating_from_net
  by_cases h1 : (0 : Rat) < net <;> by_cases h2 : (100 : Rat) < net <;>
    by_cases h3 : (500 : Rat) < net <;> by_cases h4 : (1000 : Rat) < net <;>
    by_cases h5 : (10000 : Rat) < net <;>
    simp [h1, h2, h3, h4, h5]

/-- The label of rating_from_net is selected from the final point
count alone. -/
theorem rating_label_eq (net : Rat) :
    (rating_from_net net).label =
      (if (rating_from_net net).points = 10 then "Perfect"
       else if 5 ≤ (rating_from_net net).points then "Average" else "Poor") := by
  unfold rating_from_net
  by_cases h1 : (0 : Rat) < net <;> by_cases h2 : (100 : Rat) < net <;>
    by_cases h3 : (500 : Rat) < net <;> by_cases h4 : (1000 : Rat) < net <;>
    by_cases h5 : (10000 : Rat) < net <;>
    simp [h1, h2, h3, h4, h5]

/-- Above 10000 every threshold is crossed, below it the four unit
bonuses cap at 4, so the attainable point counts are 0 to 4 and 10. -/
theorem rating_points_mem (net : Rat) :
    (rating_from_net net).points = 0 ∨ (rating_from_net net).points = 1 ∨
    (rating_from_net net).points = 2 ∨ (rating_from_net net).points = 3 ∨
    (rating_from_net net).points = 4 ∨ (rating_from_net net).points = 10 := by
  rw [rating_points_eq]
  rcases lt_or_le 10000 net with h5 | h5
  · have h1 : (0 : Rat) < net := by linarith
    have h2 : (100 : Rat) < net := by linarith
    have h3 : (500 : Rat) < net := by linarith
    have h4 : (1000 : Rat) < net := by linarith
    simp [h1, h2, h3, h4, h5]
  · have h5n : ¬ (10000 : Rat) < net := not_lt.mpr h5
    by_cases h1 : (0 : Rat) < net <;> by_cases h2 : (100 : Rat) < net <;>
      by_cases h3 : (500 : Rat) < net <;> by_cases h4 : (1000 : Rat) < net <;>
      simp [h1, h2, h3, h4, h5n]

/-- C10: for every net, the point count is one of 0, 1, 2, 3, 4, 10,
and the label "Average" is never produced. -/
theorem claim10_points_range (net : Rat) :
    ((rating_from_net net).points = 0 ∨ (rating_from_net net).points = 1 ∨
     (rating_from_net net).points = 2 ∨ (rating_from_net net).points = 3 ∨
     (rating_from_net net).points = 4 ∨ (rating_from_net net).points = 10) ∧
    (rating_from_net net).label ≠ "Average" := by
  refine ⟨rating_points_mem net, ?_⟩
  rw [rating_label_eq net]
  rcases rating_points_mem net with h | h | h | h | h | h <;> rw [h] <;> decide

/-- C8: the point count is the sum of the five independent cumulative
comparisons; the label is "Perfect" at exactly 10 points, "Average" from
5 points, else "Poor"; and the four quoted spot values hold. -/
theorem claim8_rating_ladder (net : Rat) :
    (rating_from_net net).points =
      (if 0 < net then 1 else 0) + (if 100 < net then 1 else 0) +
      (if 500 < net then 1 else 0) + (if 1000 < net then 1 else 0) +
      (if 10000 < net then 6 else 0) ∧
    (rating_from_net net).label =
      (if (rating_from_net net).points = 10 then "Perfect"
       else if 5 ≤ (rating_from_net net).points then "Average" else "Poor") ∧
    rating_from_net 0 = ⟨0, "Poor", "Your savings are in poor condition."⟩ ∧
    rating_from_net 150 = ⟨2, "Poor", "Your savings are in poor condition."⟩ ∧
    rating_from_net 600 = ⟨3, "Poor", "Your savings are in poor condition."⟩ ∧
    rating_from_net 1500 = ⟨4, "Poor", "Your savings are in poor condition."⟩ :=
  ⟨rating_points_eq net, rating_label_eq net, by decide, by decide, by decide, by decide⟩

/-- C5: with a fresh temp path distinct from the target, a failure at
any step leaves the target file content untouched and no temp file
behind while propagating the exception; only the untaken rename branch,
reached when no step fails, changes the target, and no other path is
ever touched. -/
theorem claim5_save_atomic (fs : FS) (path tmp content : String)
    (failAt : Option SaveStep) (hne : tmp ≠ path) (hfresh : fs.files tmp = none) :
    (∀ s, failAt = some s →
      (save_json_atomic fs path tmp content failAt).raised = true ∧
      (save_json_atomic fs path tmp content failAt).fs.files path = fs.files path ∧
      (save_json_atomic fs path tmp content failAt).fs.files tmp = none) ∧
    (failAt = none →
      (save_json_atomic fs path tmp content failAt).raised = false ∧
      (save_json_atomic fs path tmp content failAt).fs.files path = some content ∧
      (save_json_atomic fs path tmp content failAt).fs.files tmp = none) ∧
    (∀ q, q ≠ path → q ≠ tmp →
      (save_json_atomic fs path tmp content failAt).fs.files q = fs.files q) := by
  have hne2 : path ≠ tmp := hne.symm
  rcases failAt with _ | s
  · refine ⟨fun s hs => by simp at hs, fun _ => ?_, fun q hqp hqt => ?_⟩
    · simp [save_json_atomic, FS.writeFile, FS.removeFile, hne, hne2, hfresh]
    · simp [save_json_atomic, FS.writeFile, FS.removeFile, hqp, hqt]
  · refine ⟨fun s2 hs => ?_, fun hn => by simp at hn, fun q hqp hqt => ?_⟩
    · cases s <;>
        simp [save_json_atomic, FS.writeFile, FS.removeFile, hne, hne2, hfresh]
    · cases s <;>
        simp [save_json_atomic, FS.writeFile, FS.removeFile, hqp, hqt]

/-- C5 witness: a failure during the write step on the demo filesystem
propagates, leaves the persisted file intact, and removes the temp
file. -/
theorem claim5_witness :
    (save_json_atomic fsDemo "transactions.json" ".tmpX" "new content"
      (some .write)).raised = true ∧
    (save_json_atomic fsDemo "transactions.json" ".tmpX" "new content"
      (some .write)).fs.files "transactions.json" = fsDemo.files "transactions.json" ∧
    (save_json_atomic fsDemo "transactions.json" ".tmpX" "new content"
      (some .write)).fs.files ".tmpX" = none := by
  have h := claim5_save_atomic fsDemo "transactions.json" ".tmpX" "new content"
    (some .write) (by decide) (by decide)
  exact h.1 SaveStep.write rfl

/-- C6: whenever the transactions file is absent or its content fails to
parse as JSON, load_transactions returns the empty list, and likewise
load_settings returns the default with pin_hash None and empty budgets;
both outcomes are plain values, not errors. -/
theorem claim6_load_defaults (fs : FS) :
    ((fs.files DATA_FILE = none ∨
        ∃ c, fs.files DATA_FILE = some c ∧ json_load c = none) →
      load_transactions fs = .arr []) ∧
    ((fs.files SETTINGS_FILE = none ∨
        ∃ c, fs.files SETTINGS_FILE = some c ∧ json_load c = none) →
      load_settings fs = .obj [("pin_hash", .null), ("budgets", .obj [])]) := by
  constructor
  · rintro (h | ⟨c, hc, hparse⟩)
    · simp [load_transactions, load_json, h]
    · simp [load_transactions, load_json, hc, hparse]
  · rintro (h | ⟨c, hc, hparse⟩)
    · simp [load_settings, load_json, h]
    · simp [load_settings, load_json, hc, hparse]

/-- C6 witness: on the malformed/missing demo filesystem both loaders
return their defaults. -/
theorem claim6_witness :
    load_transactions fsBad = .arr [] ∧
    load_settings fsBad = .obj [("pin_hash", .null), ("budgets", .obj [])] :=
  ⟨(claim6_load_defaults fsBad).1 (Or.inr ⟨"not json", rfl, rfl⟩),
   (claim6_load_defaults fsBad).2 (Or.inl rfl)⟩

/-- C9: the dashboard warning rows are exactly the budget entries whose
limit converts to a positive number, with spent read from the current
month expense totals (0 if the category is absent there), classified
over when percent is at least 100 and near when percent is at least 80
and below 100; entries whose limit fails to convert or is non-positive
contribute nothing, and no error arises. -/
theorem claim9_budget_classification (txs : List Transaction) (year month : Int)
    (budgets : List (String × PyJson)) :
    dashboard_warnings txs year month budgets =
      budgets.filterMap (fun kv =>
        match pyFloat kv.2 with
        | .error _ => none
        | .ok lv =>
          if 0 < lv then
            let spent := ((totals_by_category (filter_month txs year month)
              (some "expense")).lookup kv.1).getD 0
            let percent := spent / lv * 100
            if 100 ≤ percent then some (kv.1, spent, lv, .over)
            else if 80 ≤ percent ∧ percent < 100 then some (kv.1, spent, lv, .near)
            else none
          else none) := by
  unfold dashboard_warnings
  generalize totals_by_category (filter_month txs year month) (some "expense") = spent
  induction budgets with
  | nil => rfl
  | cons kv rest ih =>
    obtain ⟨cat, limit⟩ := kv
    rw [List.filterMap_cons]
    cases hpf : pyFloat limit with
    | error e =>
      simp only [budget_warnings, hpf]
      simpa using ih
    | ok lv =>
      rcases le_or_lt lv 0 with hle | hpos
      · have hnp : ¬ (0 < lv) := not_lt.mpr hle
        simp only [budget_warnings, hpf, if_pos hle, hnp, if_false]
        simpa using ih
      · have hnle : ¬ (lv ≤ 0) := not_le.mpr hpos
        have hnz : lv ≠ 0 := ne_of_gt hpos
        simp only [budget_warnings, hpf, if_neg hnle, if_pos hpos, if_neg, hnz,
          ne_eq, not_false_iff, if_true]
        set used := ((spent.lookup cat).getD 0 : Rat) with hused
        by_cases h100 : (100 : Rat) ≤ used / lv * 100
        · simp [hnz, h100, ge_iff_le, ih]
        · by_cases h80 : (80 : Rat) ≤ used / lv * 100
          · have hlt : used / lv * 100 < 100 := not_le.mp h100
            simp [hnz, h100, h80, hlt, ih]
          · have : ¬ ((80 : Rat) ≤ used / lv * 100 ∧ used / lv * 100 < 100) :=
              fun hc => h80 hc.1
            simp [hnz, h100, h80, this, ih]

/-- upsert leaves the key list unchanged when the key is present and
appends it otherwise. -/
theorem upsert_keys (out : List (String × Rat)) (cat : String) (amt : Rat) :
    keysOf (upsert out cat amt) =
      if cat ∈ keysOf out then keysOf out else keysOf out ++ [cat] := by
  induction out with
  | nil => simp [upsert, keysOf]
  | cons kv rest ih =>
    obtain ⟨k, v⟩ := kv
    by_cases hk : k = cat
    · subst hk
      simp [upsert, keysOf]
    · have hck : ¬ cat = k := fun h => hk h.symm
      simp only [upsert, if_neg hk, keysOf, List.map_cons] at ih ⊢
      rw [ih]
      by_cases hmem : cat ∈ rest.map Prod.fst
      · rw [if_pos hmem, if_pos (List.mem_cons.mpr (Or.inr hmem))]
      · rw [if_neg hmem, if_neg (by simp [List.mem_cons, hck, hmem]),
          List.cons_append]

/-- Membership in the keys after an upsert. -/
theorem mem_upsert_keys (out : List (String × Rat)) (cat : String) (amt : Rat)
    (k : String) :
    k ∈ keysOf (upsert out cat amt) ↔ k ∈ keysOf out ∨ k = cat := by
  rw [upsert_keys]
  by_cases hmem : cat ∈ keysOf out
  · rw [if_pos hmem]
    constructor
    · exact Or.inl
    · rintro (h | rfl)
      · exact h
      · exact hmem
  · rw [if_neg hmem]
    simp [List.mem_append]

/-- upsert preserves distinctness of the keys. -/
theorem upsert_keys_nodup (out : List (String × Rat)) (cat : String) (amt : Rat)
    (h : (keysOf out).Nodup) : (keysOf (upsert out cat amt)).Nodup := by
  rw [upsert_keys]
  by_cases hmem : cat ∈ keysOf out
  · rwa [if_pos hmem]
  · rw [if_neg hmem]
    simp [List.nodup_append, h, hmem]

/-- The grouping fold keeps the keys distinct. -/
theorem foldl_catStep_nodup (ttype : Option String) (txs : List Transaction) :
    ∀ out : List (String × Rat), (keysOf out).Nodup →
      (keysOf (txs.foldl (catStep ttype) out)).Nodup := by
  induction txs with
  | nil => intro out h; simpa using h
  | cons t ts ih =>
    intro out h
    rw [List.foldl_cons]
    apply ih
    unfold catStep
    by_cases hs : skipForType ttype t
    · rwa [if_pos hs]
    · rw [if_neg hs]
      exact upsert_keys_nodup _ _ _ h

/-- The keys produced by the grouping fold are the starting keys plus
the effective category of every retained record. -/
theorem foldl_catStep_keys (ttype : Option String) (txs : List Transaction) :
    ∀ (out : List (String × Rat)) (k : String),
      k ∈ keysOf (txs.foldl (catStep ttype) out) ↔
        k ∈ keysOf out ∨ ∃ t, t ∈ txs ∧ skipForType ttype t = false ∧
          t.category.getD "Uncategorized" = k := by
  induction txs with
  | nil => intro out k; simp
  | cons t ts ih =>
    intro out k
    rw [List.foldl_cons, ih]
    constructor
    · rintro (hmem | htail)
      · unfold catStep at hmem
        by_cases hs : skipForType ttype t
        · rw [if_pos hs] at hmem
          exact Or.inl hmem
        · rw [if_neg hs] at hmem
          rcases (mem_upsert_keys _ _ _ _).mp hmem with h | rfl
          · exact Or.inl h
          · exact Or.inr ⟨t, List.mem_cons_self t ts, by simpa using hs, rfl⟩
      · obtain ⟨u, hu, hsk, hk⟩ := htail
        exact Or.inr ⟨u, List.mem_cons_of_mem _ hu, hsk, hk⟩
    · rintro (hout | ⟨u, hu, hsk, hk⟩)
      · left
        unfold catStep
        by_cases hs : skipForType ttype t
        · rwa [if_pos hs]
        · rw [if_neg hs]
          exact (mem_upsert_keys _ _ _ _).mpr (Or.inl hout)
      · rcases List.mem_cons.mp hu with rfl | hu2
        · left
          unfold catStep
          rw [if_neg (by simp [hsk])]
          exact (mem_upsert_keys _ _ _ _).mpr (Or.inr hk.symm)
        · exact Or.inr ⟨u, hu2, hsk, hk⟩

/-- C7: iterating totals_by_category yields pairwise non-increasing
sums, ties resolved by non-decreasing lowercased name; the keys are
distinct; every retained record's effective category appears among the
keys (so categories differing only in case are distinct keys, never
merged, as the concrete "Food"/"food" evaluation shows). -/
theorem claim7_category_order (txs : List Transaction) (ttype : Option String) :
    (totals_by_category txs ttype).Pairwise
      (fun a b => b.2 < a.2 ∨ (a.2 = b.2 ∧ a.1.toLower ≤ b.1.toLower)) ∧
    ((totals_by_category txs ttype).map Prod.fst).Nodup ∧
    (∀ t ∈ txs, skipForType ttype t = false →
      t.category.getD "Uncategorized" ∈ (totals_by_category txs ttype).map Prod.fst) ∧
    totals_by_category
      [mkTx (some "expense") (some (.num 50)) (some "Food") none,
       mkTx (some "expense") (some (.num 10)) (some "food") none] none =
      [("Food", 50), ("food", 10)] := by
  have hperm : List.Perm (totals_by_category txs ttype)
      (txs.foldl (catStep ttype) []) :=
    List.perm_insertionSort catLE _
  have hkeys : List.Perm ((totals_by_category txs ttype).map Prod.fst)
      ((txs.foldl (catStep ttype) []).map Prod.fst) := hperm.map Prod.fst
  refine ⟨List.sorted_insertionSort catLE _, ?_, ?_, by decide⟩
  · exact hkeys.nodup_iff.mpr (foldl_catStep_nodup ttype txs [] (by simp [keysOf]))
  · intro t ht hsk
    exact hkeys.mem_iff.mpr
      ((foldl_catStep_keys ttype txs [] (t.category.getD "Uncategorized")).mpr
        (Or.inr ⟨t, ht, hsk, rfl⟩))

/-- C7 witness: on a concrete one-record list the membership conjunct
applies with its hypotheses discharged. -/
theorem claim7_witness :
    "groceries" ∈ (totals_by_category
      [mkTx (some "expense") (some (.num 9)) (some "groceries") none] none).map
        Prod.fst := by
  have h := claim7_category_order
    [mkTx (some "expense") (some (.num 9)) (some "groceries") none] none
  exact h.2.2.1 (mkTx (some "expense") (some (.num 9)) (some "groceries") none)
    (List.mem_cons_self _ _) (by decide)

/-- C3 counterexample: a record whose category is the empty string is
grouped under the key "", not under "Uncategorized". -/
theorem claim3_counterexample :
    totals_by_category [mkTx (some "expense") (some (.num 5)) (some "") none] none =
      [("", 5)] ∧
    ("Uncategorized", 5) ∉
      totals_by_category [mkTx (some "expense") (some (.num 5)) (some "") none] none := by
  refine ⟨by decide, by decide⟩

/-- C3 amended: a record with no category key is grouped under
"Uncategorized", while one whose category is the empty string is grouped
under "" (the empty string is not coerced): the keys are exactly the
values of t.get("category", "Uncategorized") over the retained
records. -/
theorem claim3_category_keys (txs : List Transaction) (ttype : Option String)
    (k : String) :
    (k ∈ (totals_by_category txs ttype).map Prod.fst ↔
      ∃ t, t ∈ txs ∧ skipForType ttype t = false ∧
        t.category.getD "Uncategorized" = k) ∧
    totals_by_category [mkTx (some "expense") (some (.num 7)) none none] none =
      [("Uncategorized", 7)] ∧
    totals_by_category [mkTx (some "expense") (some (.num 5)) (some "") none] none =
      [("", 5)] := by
  have hperm : List.Perm (totals_by_category txs ttype)
      (txs.foldl (catStep ttype) []) :=
    List.perm_insertionSort catLE _
  refine ⟨?_, by decide, by decide⟩
  rw [(hperm.map Prod.fst).mem_iff]
  have h := foldl_catStep_keys ttype txs [] k
  simpa [keysOf] using h

/-- C3 witness: the key characterization applied on a concrete record
with no category key. -/
theorem claim3_witness :
    "Uncategorized" ∈ (totals_by_category
      [mkTx (some "expense") (some (.num 7)) none none] none).map Prod.fst := by
  exact ((claim3_category_keys
      [mkTx (some "expense") (some (.num 7)) none none] none "Uncategorized").1).mpr
    ⟨mkTx (some "expense") (some (.num 7)) none none, List.mem_cons_self _ _,
      by decide, rfl⟩
